import Mathlib

/-!
Shallow embedding of the rustrg roguelike core (src/main.rs, src/map.rs,
src/monster_ai_system.rs) and theorems checking the specification's claims
against it.

Conventions: Rust `i32` values are modelled as `Int`; the `as usize` casts and
usize arithmetic in `Map::xy_idx` wrap modulo 2^64, as in release-mode Rust.
Mutation of the map is modelled by explicit state passing; the tile vector is a
total function from the linear index (the program only touches indices below
`width * height`, and the corridor carvers guard their writes exactly as the
source does).

The repository files rect.rs, components.rs, player.rs and visibility_system.rs
are not available (only their callers are); the definitions taken from them are
marked `Modelled from the spec:` and follow the specification's words.
-/

namespace Rustrg

set_option maxRecDepth 100000

/-- Tile type, from map.rs: `enum TileType { Wall, Floor }`. -/
inductive TileType where
  | Wall
  | Floor
deriving DecidableEq

/-- Modelled from the spec: rect.rs is absent from src/ (only its callers in
map.rs / main.rs are). §3: a room is an axis-aligned rectangle (x1,y1,x2,y2). -/
structure Rect where
  x1 : Int
  y1 : Int
  x2 : Int
  y2 : Int
deriving DecidableEq

/-- Modelled from the spec: constructor used as `Rect::new(x, y, w, h)` by
`Map::load`; the stored corners are the top-left corner plus the sampled width
and height. -/
def Rect.new (x y w h : Int) : Rect :=
  { x1 := x, y1 := y, x2 := x + w, y2 := y + h }

/-- Modelled from the spec: §3 — two rooms intersect when their closed
rectangles (which pad the carved interior `x1+1..=x2, y1+1..=y2` by one tile on
the low sides, guaranteeing a one-tile wall buffer) overlap on both axes. -/
def Rect.intersect (a b : Rect) : Bool :=
  decide (a.x1 ≤ b.x2) && decide (a.x2 ≥ b.x1) &&
  decide (a.y1 ≤ b.y2) && decide (a.y2 ≥ b.y1)

/-- Modelled from the spec: the room's center, the integer midpoint of its
corners (all coordinates are nonnegative in this program, so the integer
division convention does not matter). -/
def Rect.center (r : Rect) : Int × Int :=
  ((r.x1 + r.x2) / 2, (r.y1 + r.y2) / 2)

/-- The map, from map.rs lines 14-22. The `layers` field is filled by
`load_map` from a bundled JSON resource — an external collaborator per the
spec's §1/§6 — and is omitted here; no claim concerns it. -/
structure Map where
  tiles : Nat → TileType
  rooms : List Rect
  width : Int
  height : Int
  revealed_tiles : Nat → Bool
  visible_tiles : Nat → Bool

/-- map.rs: `const MAPWIDTH: i32 = 80`. -/
def MAPWIDTH : Int := 80

/-- map.rs: `const MAPHEIGHT: i32 = 50`. -/
def MAPHEIGHT : Int := 50

/-- map.rs: `const MAPCOUNT: usize = MAPHEIGHT as usize * MAPWIDTH as usize`. -/
def MAPCOUNT : Nat := 50 * 80

/-- 2^64, the modulus of usize arithmetic on a 64-bit target. -/
def USIZE : Nat := 2 ^ 64

/-- Rust `v as usize` for `v : i32` on a 64-bit target: sign-extend and
reinterpret, i.e. reduce the integer modulo 2^64. -/
def i32ToUsize (v : Int) : Nat := (v % (USIZE : Int)).toNat

/-- Wrapping usize multiplication (release-mode Rust). -/
def usizeMul (a b : Nat) : Nat := (a * b) % USIZE

/-- Wrapping usize addition (release-mode Rust). -/
def usizeAdd (a b : Nat) : Nat := (a + b) % USIZE

/-- map.rs lines 47-49: `(y as usize * self.width as usize) + x as usize`. -/
def Map.xy_idx (m : Map) (x y : Int) : Nat :=
  usizeAdd (usizeMul (i32ToUsize y) (i32ToUsize m.width)) (i32ToUsize x)

/-- The inclusive Rust range `a ..= b` over i32, as a list of `Int`. -/
def intRange (a b : Int) : List Int :=
  (List.range (b + 1 - a).toNat).map (fun k : Nat => a + k)

/-- A single `self.tiles[idx] = TileType::Floor` store. -/
def setTile (t : Nat → TileType) (i : Nat) : Nat → TileType :=
  fun j => if j = i then TileType.Floor else t j

/-- The guarded store in the tunnel carvers, map.rs lines 63-65 / 72-74:
`if idx > 0 && idx < bound { self.tiles[idx] = TileType::Floor; }`. -/
def carveGuarded (bound : Nat) (t : Nat → TileType) (idx : Nat) : Nat → TileType :=
  if 0 < idx ∧ idx < bound then setTile t idx else t

/-- map.rs lines 51-58: carve every interior tile of the room to Floor. -/
def Map.apply_room_to_map (m : Map) (room : Rect) : Map :=
  let t :=
    (intRange (room.y1 + 1) room.y2).foldl
      (fun t y =>
        (intRange (room.x1 + 1) room.x2).foldl
          (fun t x => setTile t (m.xy_idx x y)) t)
      m.tiles
  { m with tiles := t }

/-- map.rs lines 60-67: horizontal tunnel at row `y` from `min x1 x2` to
`max x1 x2`; each write is guarded by
`idx > 0 && idx < self.width as usize * self.height as usize`. -/
def Map.apply_horizontal_tunnel (m : Map) (x1 x2 y : Int) : Map :=
  let t :=
    (intRange (min x1 x2) (max x1 x2)).foldl
      (fun t x =>
        carveGuarded (usizeMul (i32ToUsize m.width) (i32ToUsize m.height)) t
          (m.xy_idx x y))
      m.tiles
  { m with tiles := t }

/-- map.rs lines 69-76: vertical tunnel at column `x` from `min y1 y2` to
`max y1 y2`; each write is guarded by `idx > 0 && idx < MAPCOUNT`. -/
def Map.apply_vertical_tunnel (m : Map) (y1 y2 x : Int) : Map :=
  let t :=
    (intRange (min y1 y2) (max y1 y2)).foldl
      (fun t y => carveGuarded MAPCOUNT t (m.xy_idx x y))
      m.tiles
  { m with tiles := t }

/-- The rltk `RandomNumberGenerator`, modelled at the library boundary as a
stream of raw draws plus a cursor. `Map::load` creates it with `new()` (no
seed), so the stream is the generator's ambient draw sequence. -/
structure RNG where
  stream : Nat → Nat
  pos : Nat

/-- Draw one raw value and advance the cursor. -/
def RNG.next (r : RNG) : Nat × RNG :=
  (r.stream r.pos, { r with pos := r.pos + 1 })

/-- rltk `range(lo, hi)`: a value uniform in `[lo, hi)`, modelled as
`lo + draw % (hi - lo)` (all call sites have `lo < hi`). -/
def RNG.range (r : RNG) (lo hi : Int) : Int × RNG :=
  let vr := r.next
  (lo + (vr.1 : Int) % (hi - lo), vr.2)

/-- rltk `roll_dice(1, die)`, the only shape `Map::load` uses: a value uniform
in `[1, die]`, modelled as `1 + draw % die`. -/
def RNG.roll_dice (r : RNG) (_n die : Int) : Int × RNG :=
  let vr := r.next
  (1 + (vr.1 : Int) % die, vr.2)

/-- The freshly initialized map of map.rs lines 97-105: all Wall, no rooms,
80×50, nothing revealed or visible. -/
def initialMap : Map :=
  { tiles := fun _ => TileType.Wall
    rooms := []
    width := MAPWIDTH
    height := MAPHEIGHT
    revealed_tiles := fun _ => false
    visible_tiles := fun _ => false }

/-- map.rs lines 116-120: sample one candidate room.
`w, h = rng.range(6, 10)`; `x = rng.roll_dice(1, width - w - 1) - 1`;
`y = rng.roll_dice(1, height - h - 1) - 1`; `Rect::new(x, y, w, h)`. -/
def loadCand (m : Map) (r : RNG) : Rect × RNG :=
  let wr := r.range 6 10
  let hr := wr.2.range 6 10
  let xr := hr.2.roll_dice 1 (m.width - wr.1 - 1)
  let yr := xr.2.roll_dice 1 (m.height - hr.1 - 1)
  (Rect.new (xr.1 - 1) (yr.1 - 1) wr.1 hr.1, yr.2)

/-- map.rs lines 121-125: `ok` starts true and is cleared by any intersecting
previously accepted room. -/
def roomOk (m : Map) (cand : Rect) : Bool :=
  m.rooms.foldl (fun ok other => if cand.intersect other then false else ok) true

/-- map.rs lines 133-139: connect the previous room's center `p` to the new
room's center `c`. On draw 1: horizontal at `p`'s row, then vertical at `p`'s
column; otherwise vertical at `p`'s column, then horizontal at `c`'s row. -/
def connect_rooms (m : Map) (p c : Int × Int) (d : Int) : Map :=
  if d = 1 then
    (m.apply_horizontal_tunnel p.1 c.1 p.2).apply_vertical_tunnel p.2 c.2 p.1
  else
    (m.apply_vertical_tunnel p.2 c.2 p.1).apply_horizontal_tunnel p.1 c.1 c.2

/-- One iteration of the generation loop, map.rs lines 115-144: sample a
candidate, accept it iff it intersects no previously accepted room, carve it,
and (when it is not the first) tunnel to the previous room's center before
pushing it onto the room list. -/
def loadStep (mr : Map × RNG) : Map × RNG :=
  let m := mr.1
  let cr := loadCand m mr.2
  let new_room := cr.1
  let r4 := cr.2
  if roomOk m new_room then
    let m1 := m.apply_room_to_map new_room
    match m1.rooms.getLast? with
    | none => ({ m1 with rooms := m1.rooms ++ [new_room] }, r4)
    | some prev =>
      let dr := r4.range 0 2
      let m2 := connect_rooms m1 prev.center new_room.center dr.1
      ({ m2 with rooms := m2.rooms ++ [new_room] }, dr.2)
  else
    (m, r4)

/-- `for _ in 0..n` around `loadStep`. -/
def loadLoop : Nat → Map × RNG → Map × RNG
  | 0, mr => mr
  | n + 1, mr => loadLoop n (loadStep mr)

/-- map.rs `Map::load`: start from the all-Wall map and run the generation
loop `MAX_ROOMS = 30` times. The rltk generator is created inside `load` by
`RandomNumberGenerator::new()` with no seed; its ambient draw stream is the
explicit `stream` argument of the embedding. (`load_map`, which only fills the
omitted `layers` field from the bundled JSON, is skipped.) -/
def Map.load (stream : Nat → Nat) : Map :=
  (loadLoop 30 (initialMap, { stream := stream, pos := 0 })).1

/-- main.rs line 100: `let (player_x, player_y) = map.rooms[0].center();`.
Rust `Vec` indexing panics on an empty vector, modelled as `none`. -/
def playerStart (m : Map) : Option (Int × Int) :=
  match m.rooms with
  | [] => none
  | r :: _ => some r.center

/-- main.rs line 22: `enum RunState { Paused, Running }`. -/
inductive RunState where
  | Paused
  | Running
deriving DecidableEq

/-- The two system passes dispatched by `State::run_systems`
(main.rs lines 30-37), as observable labels. -/
inductive SysPass where
  | visibility
  | monsterReaction
deriving DecidableEq

/-- main.rs lines 30-37: `run_systems` runs `VisibilitySystem` then
`MonsterAI`, in that order, as the trace of passes it dispatches. -/
def State.run_systems : List SysPass :=
  [SysPass.visibility, SysPass.monsterReaction]

/-- Modelled from the spec: player.rs is absent from src/. §6: input
resolution keeps the state machine in `Paused` when no actionable input is
received, and transitions to `Running` on a turn-consuming command. -/
def player_input (actionable : Bool) : RunState :=
  if actionable then RunState.Running else RunState.Paused

/-- main.rs lines 43-48, the scheduling core of `State::tick`: in `Running`,
run the systems once and return to `Paused`; otherwise set the state from
`player_input`. Returns the next state and the trace of system passes run. -/
def State.tick (rs : RunState) (actionable : Bool) : RunState × List SysPass :=
  if rs = RunState.Running then (RunState.Paused, State.run_systems)
  else (player_input actionable, [])

/-- rltk `Point`, an (x, y) pair of i32. -/
structure Point where
  x : Int
  y : Int
deriving DecidableEq, BEq

/-- Modelled from the spec: components.rs is absent from src/. §3's Visibility
record, with the fields its callers use (main.rs lines 111/123,
monster_ai_system.rs line 16): `visible_tiles`, `range`, `dirty`. -/
structure Viewshed where
  visible_tiles : List Point
  range : Int
  dirty : Bool

/-- The loop of `MonsterAI::run` (monster_ai_system.rs lines 15-19) from
position `i` of the joined (Viewshed, Monster) list: when the viewshed
contains the player's position, the reaction stub in the loop body is reached
and one reaction event — tagged with the monster's join position — is
emitted. -/
def runFrom (player_pos : Point) : Nat → List Viewshed → List Nat
  | _, [] => []
  | i, v :: rest =>
    if v.visible_tiles.contains player_pos then i :: runFrom player_pos (i + 1) rest
    else runFrom player_pos (i + 1) rest

/-- monster_ai_system.rs lines 12-20: `MonsterAI::run` over the joined
monster viewsheds, given the player position resource. All of its
`SystemData` is read-only (`ReadExpect`/`ReadStorage`), so the pass is a pure
function of its inputs returning only the emitted reaction events. -/
def MonsterAI.run (player_pos : Point) (monsters : List Viewshed) : List Nat :=
  runFrom player_pos 0 monsters

/-- The Grid fields written by the visibility pass, map.rs lines 19-20
(`revealed_tiles`, `visible_tiles`), isolated as the visibility state. -/
structure GridVis where
  revealed_tiles : Nat → Bool
  visible_tiles : Nat → Bool

/-- Modelled from the spec: visibility_system.rs is absent from src/ (map.rs
only declares the fields). §4.3: after the player's viewshed is recomputed,
union the result into the Grid's `revealed` set and replace the Grid's
`visible` set with the result. -/
def VisibilitySystem.playerUpdate (computed : Nat → Bool) (g : GridVis) : GridVis :=
  { revealed_tiles := fun i => g.revealed_tiles i || computed i
    visible_tiles := computed }

/-- A sequence of turns: one player-perspective visibility recompute per turn,
each producing a freshly computed visible set, applied in order. -/
def visRuns (g : GridVis) (cs : List (Nat → Bool)) : GridVis :=
  cs.foldl (fun g c => VisibilitySystem.playerUpdate c g) g

/-- Every accepted room's interior (`x1+1..=x2, y1+1..=y2`) is Floor — the
generation-loop invariant behind claim C6. -/
def roomsFloored (m : Map) : Prop :=
  ∀ r ∈ m.rooms, ∀ x y : Int,
    r.x1 + 1 ≤ x → x ≤ r.x2 → r.y1 + 1 ≤ y → y ≤ r.y2 →
    m.tiles (m.xy_idx x y) = TileType.Floor

/-! ### Helper lemmas about the carving folds -/

theorem setTile_self (t : Nat → TileType) (i : Nat) : setTile t i i = TileType.Floor := by
  simp [setTile]

theorem setTile_or (t : Nat → TileType) (i j : Nat) :
    setTile t i j = t j ∨ setTile t i j = TileType.Floor := by
  unfold setTile
  by_cases h : j = i <;> simp [h]

theorem setTile_preserve (t : Nat → TileType) (i j : Nat)
    (h : t j = TileType.Floor) : setTile t i j = TileType.Floor := by
  rcases setTile_or t i j with h' | h' <;> simp [h', h]

theorem carveGuarded_preserve (bound : Nat) (t : Nat → TileType) (idx j : Nat)
    (h : t j = TileType.Floor) : carveGuarded bound t idx j = TileType.Floor := by
  unfold carveGuarded
  split
  · exact setTile_preserve t idx j h
  · exact h

theorem carveGuarded_unchanged (bound : Nat) (t : Nat → TileType) (idx j : Nat)
    (h : j = 0 ∨ bound ≤ j) : carveGuarded bound t idx j = t j := by
  unfold carveGuarded setTile
  split
  · rename_i hg
    show (if j = idx then TileType.Floor else t j) = t j
    split
    · rename_i hji
      exfalso
      omega
    · rfl
  · rfl

theorem carveGuarded_changed (bound : Nat) (t : Nat → TileType) (idx j : Nat)
    (h : carveGuarded bound t idx j ≠ t j) : 0 < j ∧ j < bound := by
  by_contra hc
  exact h (carveGuarded_unchanged bound t idx j (by omega))

theorem foldl_tiles_preserve {α : Type} (g : (Nat → TileType) → α → (Nat → TileType))
    (hg : ∀ t a j, t j = TileType.Floor → g t a j = TileType.Floor) :
    ∀ (l : List α) (t : Nat → TileType) (j : Nat),
      t j = TileType.Floor → (l.foldl g t) j = TileType.Floor := by
  intro l
  induction l with
  | nil => intro t j h; exact h
  | cons a as ih => intro t j h; exact ih (g t a) j (hg t a j h)

theorem foldl_tiles_mem {α : Type} (g : (Nat → TileType) → α → (Nat → TileType))
    (hg : ∀ t a j, t j = TileType.Floor → g t a j = TileType.Floor) :
    ∀ (l : List α) (t : Nat → TileType) (j : Nat) (a : α),
      a ∈ l → (∀ t', g t' a j = TileType.Floor) → (l.foldl g t) j = TileType.Floor := by
  intro l
  induction l with
  | nil => intro t j a ha _; cases ha
  | cons b bs ih =>
    intro t j a ha hw
    rcases List.mem_cons.mp ha with rfl | hmem
    · exact foldl_tiles_preserve g hg bs (g t a) j (hw t)
    · exact ih (g t b) j a hmem hw

theorem foldl_carve_unchanged {α : Type} (bound : Nat) (f : α → Nat) :
    ∀ (l : List α) (t : Nat → TileType) (j : Nat), j = 0 ∨ bound ≤ j →
      (l.foldl (fun t a => carveGuarded bound t (f a)) t) j = t j := by
  intro l
  induction l with
  | nil => intro t j _; rfl
  | cons a as ih =>
    intro t j h
    rw [List.foldl_cons, ih (carveGuarded bound t (f a)) j h,
      carveGuarded_unchanged bound t (f a) j h]

theorem foldl_carve_changed {α : Type} (bound : Nat) (f : α → Nat) :
    ∀ (l : List α) (t : Nat → TileType) (j : Nat),
      (l.foldl (fun t a => carveGuarded bound t (f a)) t) j ≠ t j →
      0 < j ∧ j < bound := by
  intro l
  induction l with
  | nil => intro t j h; exact absurd rfl h
  | cons a as ih =>
    intro t j h
    by_cases h' : (as.foldl (fun t a => carveGuarded bound t (f a))
        (carveGuarded bound t (f a))) j = carveGuarded bound t (f a) j
    · rw [List.foldl_cons] at h
      rw [h'] at h
      exact carveGuarded_changed bound t (f a) j h
    · exact ih (carveGuarded bound t (f a)) j h'

theorem mem_intRange {a b x : Int} : x ∈ intRange a b ↔ a ≤ x ∧ x ≤ b := by
  simp only [intRange, List.mem_map, List.mem_range]
  constructor
  · rintro ⟨k, hk, rfl⟩
    omega
  · rintro ⟨h1, h2⟩
    exact ⟨(x - a).toNat, by omega, by omega⟩

theorem Map.load_eq (s : Nat → Nat) :
    Map.load s = (loadLoop 30 (initialMap, ⟨s, 0⟩)).1 := by
  unfold Map.load
  rfl

/-! ### Field-stability and Floor-stability of the carving operations -/

theorem apply_room_rooms (m : Map) (r : Rect) : (m.apply_room_to_map r).rooms = m.rooms := rfl

theorem apply_room_width (m : Map) (r : Rect) : (m.apply_room_to_map r).width = m.width := rfl

theorem horizontal_rooms (m : Map) (x1 x2 y : Int) :
    (m.apply_horizontal_tunnel x1 x2 y).rooms = m.rooms := rfl

theorem horizontal_width (m : Map) (x1 x2 y : Int) :
    (m.apply_horizontal_tunnel x1 x2 y).width = m.width := rfl

theorem vertical_rooms (m : Map) (y1 y2 x : Int) :
    (m.apply_vertical_tunnel y1 y2 x).rooms = m.rooms := rfl

theorem vertical_width (m : Map) (y1 y2 x : Int) :
    (m.apply_vertical_tunnel y1 y2 x).width = m.width := rfl

theorem apply_room_preserve (m : Map) (r : Rect) (j : Nat)
    (h : m.tiles j = TileType.Floor) :
    (m.apply_room_to_map r).tiles j = TileType.Floor := by
  refine foldl_tiles_preserve _ ?_ _ m.tiles j h
  intro t y j' hj'
  exact foldl_tiles_preserve _ (fun t x j'' h'' => setTile_preserve t (m.xy_idx x y) j'' h'')
    _ t j' hj'

theorem apply_room_interior (m : Map) (r : Rect) (x y : Int)
    (hx1 : r.x1 + 1 ≤ x) (hx2 : x ≤ r.x2) (hy1 : r.y1 + 1 ≤ y) (hy2 : y ≤ r.y2) :
    (m.apply_room_to_map r).tiles (m.xy_idx x y) = TileType.Floor := by
  refine foldl_tiles_mem _ ?_ _ m.tiles (m.xy_idx x y) y (mem_intRange.mpr ⟨hy1, hy2⟩) ?_
  · intro t y' j' hj'
    exact foldl_tiles_preserve _ (fun t x' j'' h'' => setTile_preserve t (m.xy_idx x' y') j'' h'')
      _ t j' hj'
  · intro t'
    refine foldl_tiles_mem _ (fun t x' j'' h'' => setTile_preserve t (m.xy_idx x' y) j'' h'')
      _ t' (m.xy_idx x y) x (mem_intRange.mpr ⟨hx1, hx2⟩) ?_
    intro t''
    exact setTile_self t'' (m.xy_idx x y)

theorem horizontal_preserve (m : Map) (x1 x2 y : Int) (j : Nat)
    (h : m.tiles j = TileType.Floor) :
    (m.apply_horizontal_tunnel x1 x2 y).tiles j = TileType.Floor :=
  foldl_tiles_preserve _
    (fun t x j' h' =>
      carveGuarded_preserve (usizeMul (i32ToUsize m.width) (i32ToUsize m.height)) t
        (m.xy_idx x y) j' h')
    _ m.tiles j h

theorem vertical_preserve (m : Map) (y1 y2 x : Int) (j : Nat)
    (h : m.tiles j = TileType.Floor) :
    (m.apply_vertical_tunnel y1 y2 x).tiles j = TileType.Floor :=
  foldl_tiles_preserve _
    (fun t y j' h' => carveGuarded_preserve MAPCOUNT t (m.xy_idx x y) j' h')
    _ m.tiles j h

theorem connect_rooms_rooms (m : Map) (p c : Int × Int) (d : Int) :
    (connect_rooms m p c d).rooms = m.rooms := by
  unfold connect_rooms
  split <;> rfl

theorem connect_rooms_width (m : Map) (p c : Int × Int) (d : Int) :
    (connect_rooms m p c d).width = m.width := by
  unfold connect_rooms
  split <;> rfl

theorem connect_rooms_preserve (m : Map) (p c : Int × Int) (d : Int) (j : Nat)
    (h : m.tiles j = TileType.Floor) :
    (connect_rooms m p c d).tiles j = TileType.Floor := by
  unfold connect_rooms
  split
  · exact vertical_preserve _ _ _ _ j (horizontal_preserve m _ _ _ j h)
  · exact horizontal_preserve _ _ _ _ j (vertical_preserve m _ _ _ j h)

theorem apply_room_height (m : Map) (r : Rect) : (m.apply_room_to_map r).height = m.height := rfl

theorem horizontal_height (m : Map) (x1 x2 y : Int) :
    (m.apply_horizontal_tunnel x1 x2 y).height = m.height := rfl

theorem vertical_height (m : Map) (y1 y2 x : Int) :
    (m.apply_vertical_tunnel y1 y2 x).height = m.height := rfl

theorem connect_rooms_height (m : Map) (p c : Int × Int) (d : Int) :
    (connect_rooms m p c d).height = m.height := by
  unfold connect_rooms
  split <;> rfl

theorem xy_idx_of_width_eq (m m' : Map) (h : m'.width = m.width) (x y : Int) :
    m'.xy_idx x y = m.xy_idx x y := by
  unfold Map.xy_idx
  rw [h]

/-! ### The generation step: rooms, dimensions, tiles -/

theorem loadStep_rooms (m : Map) (r : RNG) :
    (loadStep (m, r)).1.rooms =
      if roomOk m (loadCand m r).1 then m.rooms ++ [(loadCand m r).1] else m.rooms := by
  simp only [loadStep]
  by_cases hok : roomOk m (loadCand m r).1
  · simp only [hok, if_true]
    cases hl : (m.apply_room_to_map (loadCand m r).1).rooms.getLast? <;>
      simp [hl, apply_room_rooms, connect_rooms_rooms]
  · simp [hok]

theorem loadStep_width (m : Map) (r : RNG) : (loadStep (m, r)).1.width = m.width := by
  simp only [loadStep]
  by_cases hok : roomOk m (loadCand m r).1
  · simp only [hok, if_true]
    cases hl : (m.apply_room_to_map (loadCand m r).1).rooms.getLast? <;>
      simp [hl, connect_rooms_width, apply_room_width]
  · simp [hok]

theorem loadStep_height (m : Map) (r : RNG) : (loadStep (m, r)).1.height = m.height := by
  simp only [loadStep]
  by_cases hok : roomOk m (loadCand m r).1
  · simp only [hok, if_true]
    cases hl : (m.apply_room_to_map (loadCand m r).1).rooms.getLast? <;>
      simp [hl, connect_rooms_height, apply_room_height]
  · simp [hok]

theorem loadStep_tiles_preserve (m : Map) (r : RNG) (j : Nat)
    (h : m.tiles j = TileType.Floor) :
    (loadStep (m, r)).1.tiles j = TileType.Floor := by
  simp only [loadStep]
  by_cases hok : roomOk m (loadCand m r).1
  · simp only [hok, if_true]
    cases hl : (m.apply_room_to_map (loadCand m r).1).rooms.getLast? <;> simp only [hl]
    · exact apply_room_preserve m _ j h
    · exact connect_rooms_preserve _ _ _ _ j (apply_room_preserve m _ j h)
  · simp only [hok, if_false]
    exact h

theorem loadStep_new_interior (m : Map) (r : RNG) (x y : Int)
    (hok : roomOk m (loadCand m r).1 = true)
    (hx1 : (loadCand m r).1.x1 + 1 ≤ x) (hx2 : x ≤ (loadCand m r).1.x2)
    (hy1 : (loadCand m r).1.y1 + 1 ≤ y) (hy2 : y ≤ (loadCand m r).1.y2) :
    (loadStep (m, r)).1.tiles (m.xy_idx x y) = TileType.Floor := by
  simp only [loadStep]
  simp only [hok, if_true]
  cases hl : (m.apply_room_to_map (loadCand m r).1).rooms.getLast? <;> simp only [hl]
  · exact apply_room_interior m _ x y hx1 hx2 hy1 hy2
  · exact connect_rooms_preserve _ _ _ _ _ (apply_room_interior m _ x y hx1 hx2 hy1 hy2)

theorem loadStep_floored (m : Map) (r : RNG) (h : roomsFloored m) :
    roomsFloored (loadStep (m, r)).1 := by
  intro rm hrm x y hx1 hx2 hy1 hy2
  rw [xy_idx_of_width_eq m _ (loadStep_width m r) x y]
  rw [loadStep_rooms] at hrm
  by_cases hok : roomOk m (loadCand m r).1
  · rw [hok] at hrm
    simp only [if_true, List.mem_append, List.mem_singleton] at hrm
    rcases hrm with hold | rfl
    · exact loadStep_tiles_preserve m r _ (h rm hold x y hx1 hx2 hy1 hy2)
    · exact loadStep_new_interior m r x y hok hx1 hx2 hy1 hy2
  · simp only [hok, if_false] at hrm
    exact loadStep_tiles_preserve m r _ (h rm hrm x y hx1 hx2 hy1 hy2)

theorem loadLoop_floored : ∀ (n : Nat) (mr : Map × RNG),
    roomsFloored mr.1 → roomsFloored (loadLoop n mr).1 := by
  intro n
  induction n with
  | zero => intro mr h; exact h
  | succ k ih =>
    intro mr h
    exact ih (loadStep mr) (loadStep_floored mr.1 mr.2 h)

theorem loadLoop_width : ∀ (n : Nat) (mr : Map × RNG),
    (loadLoop n mr).1.width = mr.1.width := by
  intro n
  induction n with
  | zero => intro mr; rfl
  | succ k ih =>
    intro mr
    rw [show loadLoop (k + 1) mr = loadLoop k (loadStep mr) from rfl, ih (loadStep mr)]
    exact loadStep_width mr.1 mr.2

theorem loadLoop_height : ∀ (n : Nat) (mr : Map × RNG),
    (loadLoop n mr).1.height = mr.1.height := by
  intro n
  induction n with
  | zero => intro mr; rfl
  | succ k ih =>
    intro mr
    rw [show loadLoop (k + 1) mr = loadLoop k (loadStep mr) from rfl, ih (loadStep mr)]
    exact loadStep_height mr.1 mr.2

/-! ### Acceptance test and pairwise disjointness -/

theorem roomOk_foldl (c : Rect) : ∀ (l : List Rect) (b : Bool),
    l.foldl (fun ok other => if c.intersect other then false else ok) b =
      (b && l.all (fun p => ! c.intersect p)) := by
  intro l
  induction l with
  | nil => intro b; simp
  | cons a as ih =>
    intro b
    rw [List.foldl_cons, ih]
    by_cases hca : c.intersect a <;> simp [hca, Bool.and_assoc]

theorem roomOk_iff (m : Map) (c : Rect) :
    roomOk m c = true ↔ ∀ p ∈ m.rooms, c.intersect p = false := by
  unfold roomOk
  rw [roomOk_foldl]
  simp [List.all_eq_true]

theorem Rect.intersect_comm (a b : Rect) : a.intersect b = b.intersect a := by
  unfold Rect.intersect
  rw [Bool.eq_iff_iff]
  simp only [Bool.and_eq_true, decide_eq_true_eq, ge_iff_le]
  tauto

theorem loadStep_pairwise (m : Map) (r : RNG)
    (h : m.rooms.Pairwise (fun a b => a.intersect b = false)) :
    (loadStep (m, r)).1.rooms.Pairwise (fun a b => a.intersect b = false) := by
  rw [loadStep_rooms]
  by_cases hok : roomOk m (loadCand m r).1
  · simp only [hok, if_true]
    rw [List.pairwise_append]
    refine ⟨h, List.pairwise_singleton _ _, ?_⟩
    intro a ha b hb
    rw [List.mem_singleton] at hb
    subst hb
    rw [Rect.intersect_comm]
    exact (roomOk_iff m _).mp hok a ha
  · simp only [hok, if_false]
    exact h

theorem loadLoop_pairwise : ∀ (n : Nat) (mr : Map × RNG),
    mr.1.rooms.Pairwise (fun a b => a.intersect b = false) →
    (loadLoop n mr).1.rooms.Pairwise (fun a b => a.intersect b = false) := by
  intro n
  induction n with
  | zero => intro mr h; exact h
  | succ k ih =>
    intro mr h
    exact ih (loadStep mr) (loadStep_pairwise mr.1 mr.2 h)

/-! ### Generation consumes at most five draws per iteration -/

theorem loadCand_rng (m : Map) (s : Nat → Nat) (p : Nat) :
    (loadCand m ⟨s, p⟩).2 = ⟨s, p + 4⟩ := by
  simp [loadCand, RNG.range, RNG.roll_dice, RNG.next, RNG.mk.injEq]

theorem loadCand_fst_congr (m : Map) (s t : Nat → Nat) (p : Nat)
    (h0 : s p = t p) (h1 : s (p + 1) = t (p + 1))
    (h2 : s (p + 1 + 1) = t (p + 1 + 1)) (h3 : s (p + 1 + 1 + 1) = t (p + 1 + 1 + 1)) :
    (loadCand m ⟨s, p⟩).1 = (loadCand m ⟨t, p⟩).1 := by
  simp only [loadCand, RNG.range, RNG.roll_dice, RNG.next]
  rw [h0, h1, h2, h3]

theorem loadStep_rng (m : Map) (s : Nat → Nat) (p : Nat) :
    (loadStep (m, ⟨s, p⟩)).2 = ⟨s, p + 4⟩ ∨ (loadStep (m, ⟨s, p⟩)).2 = ⟨s, p + 5⟩ := by
  simp only [loadStep]
  by_cases hok : roomOk m (loadCand m ⟨s, p⟩).1
  · simp only [hok, if_true]
    cases hl : (m.apply_room_to_map (loadCand m ⟨s, p⟩).1).rooms.getLast? <;> simp only [hl]
    · left
      exact loadCand_rng m s p
    · right
      rw [loadCand_rng m s p]
      simp [RNG.range, RNG.next, RNG.mk.injEq]
  · simp only [hok, if_false]
    left
    exact loadCand_rng m s p

theorem loadStep_congr (m : Map) (s t : Nat → Nat) (p : Nat)
    (h : ∀ k, p ≤ k → k < p + 5 → s k = t k) :
    (loadStep (m, ⟨s, p⟩)).1 = (loadStep (m, ⟨t, p⟩)).1 ∧
      (loadStep (m, ⟨s, p⟩)).2.pos = (loadStep (m, ⟨t, p⟩)).2.pos := by
  have e0 : s p = t p := h p (Nat.le_refl p) (by omega)
  have e1 : s (p + 1) = t (p + 1) := h _ (by omega) (by omega)
  have e2 : s (p + 1 + 1) = t (p + 1 + 1) := h _ (by omega) (by omega)
  have e3 : s (p + 1 + 1 + 1) = t (p + 1 + 1 + 1) := h _ (by omega) (by omega)
  have e4 : s (p + 4) = t (p + 4) := h _ (by omega) (by omega)
  have hc := loadCand_fst_congr m s t p e0 e1 e2 e3
  simp only [loadStep]
  rw [hc, loadCand_rng m s p, loadCand_rng m t p]
  by_cases hok : roomOk m (loadCand m ⟨t, p⟩).1
  · simp only [hok, if_true]
    cases hl : (m.apply_room_to_map (loadCand m ⟨t, p⟩).1).rooms.getLast? <;> simp only [hl]
    · constructor <;> first | rfl | trivial
    · simp only [RNG.range, RNG.next]
      rw [e4]
      exact ⟨rfl, trivial⟩
  · simp only [hok, if_false]
    constructor <;> first | rfl | trivial

theorem loadLoop_congr : ∀ (n : Nat) (m : Map) (p : Nat) (s t : Nat → Nat),
    (∀ k, p ≤ k → k < p + 5 * n → s k = t k) →
    (loadLoop n (m, ⟨s, p⟩)).1 = (loadLoop n (m, ⟨t, p⟩)).1 := by
  intro n
  induction n with
  | zero => intro m p s t _; rfl
  | succ k ih =>
    intro m p s t h
    have hw : ∀ j, p ≤ j → j < p + 5 → s j = t j := fun j hj1 hj2 => h j hj1 (by omega)
    have hstep := loadStep_congr m s t p hw
    have hpos := hstep.2
    show (loadLoop k (loadStep (m, ⟨s, p⟩))).1 = (loadLoop k (loadStep (m, ⟨t, p⟩))).1
    rcases loadStep_rng m s p with hs | hs <;> rcases loadStep_rng m t p with ht | ht
    · have hs' : loadStep (m, ⟨s, p⟩) = ((loadStep (m, ⟨s, p⟩)).1, ⟨s, p + 4⟩) := by
        rw [← hs]
      have ht' : loadStep (m, ⟨t, p⟩) = ((loadStep (m, ⟨t, p⟩)).1, ⟨t, p + 4⟩) := by
        rw [← ht]
      rw [hs', ht', ← hstep.1]
      exact ih (loadStep (m, ⟨s, p⟩)).1 (p + 4) s t (fun j h1 h2 => h j (by omega) (by omega))
    · exfalso
      rw [hs, ht] at hpos
      simp only at hpos
      omega
    · exfalso
      rw [hs, ht] at hpos
      simp only at hpos
      omega
    · have hs' : loadStep (m, ⟨s, p⟩) = ((loadStep (m, ⟨s, p⟩)).1, ⟨s, p + 5⟩) := by
        rw [← hs]
      have ht' : loadStep (m, ⟨t, p⟩) = ((loadStep (m, ⟨t, p⟩)).1, ⟨t, p + 5⟩) := by
        rw [← ht]
      rw [hs', ht', ← hstep.1]
      exact ih (loadStep (m, ⟨s, p⟩)).1 (p + 5) s t (fun j h1 h2 => h j (by omega) (by omega))

/-! ### Visibility bookkeeping and monster reaction counting -/

theorem visRuns_append (g : GridVis) (cs : List (Nat → Bool)) (c : Nat → Bool) :
    visRuns g (cs ++ [c]) = VisibilitySystem.playerUpdate c (visRuns g cs) := by
  simp [visRuns, List.foldl_append]

theorem visRuns_mono : ∀ (ds : List (Nat → Bool)) (g : GridVis) (i : Nat),
    g.revealed_tiles i = true → (visRuns g ds).revealed_tiles i = true := by
  intro ds
  induction ds with
  | nil => intro g i h; exact h
  | cons c cs ih =>
    intro g i h
    exact ih (VisibilitySystem.playerUpdate c g) i
      (by simp [VisibilitySystem.playerUpdate, h])

theorem runFrom_lb (p : Point) : ∀ (ms : List Viewshed) (i0 j : Nat),
    j ∈ runFrom p i0 ms → i0 ≤ j := by
  intro ms
  induction ms with
  | nil =>
    intro i0 j h
    simp [runFrom] at h
  | cons v rest ih =>
    intro i0 j h
    rw [runFrom] at h
    by_cases hc : v.visible_tiles.contains p = true
    · rw [if_pos hc] at h
      rcases List.mem_cons.mp h with rfl | hmem
      · exact Nat.le_refl j
      · have := ih (i0 + 1) j hmem
        omega
    · rw [if_neg hc] at h
      have := ih (i0 + 1) j h
      omega

theorem runFrom_count (p : Point) : ∀ (ms : List Viewshed) (i0 k : Nat) (h : k < ms.length),
    (runFrom p i0 ms).count (i0 + k) =
      if (ms.get ⟨k, h⟩).visible_tiles.contains p = true then 1 else 0 := by
  intro ms
  induction ms with
  | nil =>
    intro i0 k h
    exact absurd h (by simp)
  | cons v rest ih =>
    intro i0 k h
    cases k with
    | zero =>
      have hnm : i0 ∉ runFrom p (i0 + 1) rest := by
        intro hm
        have := runFrom_lb p rest (i0 + 1) i0 hm
        omega
      have hz : (runFrom p (i0 + 1) rest).count i0 = 0 := List.count_eq_zero.mpr hnm
      rw [runFrom]
      by_cases hc : v.visible_tiles.contains p = true
      · rw [if_pos hc, Nat.add_zero, List.count_cons_self, hz]
        simp [hc]
      · rw [if_neg hc, Nat.add_zero, hz]
        simp [hc]
    | succ k' =>
      rw [runFrom]
      have hne : i0 + (k' + 1) ≠ i0 := by omega
      have hstep : i0 + (k' + 1) = (i0 + 1) + k' := by omega
      by_cases hc : v.visible_tiles.contains p = true
      · rw [if_pos hc, List.count_cons_of_ne hne, hstep, List.get_cons_succ]
        exact ih (i0 + 1) k' (by simpa using h)
      · rw [if_neg hc, hstep, List.get_cons_succ]
        exact ih (i0 + 1) k' (by simpa using h)

/-! ### The claims -/

set_option maxRecDepth 100000 in
/-- Claim C1, refuted (code bug): the spec says both carving-order branches
connect the previous center to the new center, the order being cosmetic only.
In the horizontal-then-vertical branch (map.rs line 135) the vertical tunnel
runs at the previous center's column `prev_x` instead of the new center's
column, so on an all-Wall map that branch leaves the new center's tile
untouched (Wall), while the vertical-then-horizontal branch does reach it:
with centers (3,3) and (43,43), draw 1 leaves (43,43) Wall and draw 0 carves
it to Floor — the branch choice is not cosmetic and branch 1 joins no path
between the centers. -/
theorem claim_c1_connect_asymmetric :
    (connect_rooms initialMap (3, 3) (43, 43) 1).tiles (initialMap.xy_idx 43 43) =
        TileType.Wall ∧
    (connect_rooms initialMap (3, 3) (43, 43) 0).tiles (initialMap.xy_idx 43 43) =
        TileType.Floor := by
  constructor <;> decide

/-- Claim C2: a tick in `Running` executes exactly one Visibility pass
followed by exactly one Monster Reaction pass, in that order, and returns to
`Paused` (whatever the input); a tick in `Paused` with no actionable input
runs no system pass and stays `Paused`. -/
theorem claim_c2_scheduler :
    (∀ b : Bool, State.tick RunState.Running b =
        (RunState.Paused, [SysPass.visibility, SysPass.monsterReaction])) ∧
    State.tick RunState.Paused false = (RunState.Paused, []) := by
  constructor
  · intro b
    rfl
  · rfl

/-- Claim C3: after any visibility pass the Grid's visible set is contained in
its revealed set; the revealed set only grows across any further sequence of
passes; and each pass fully replaces the visible set with the freshly
computed one. -/
theorem claim_c3_revealed_invariant :
    (∀ (g : GridVis) (cs : List (Nat → Bool)) (c : Nat → Bool) (i : Nat),
        (visRuns g (cs ++ [c])).visible_tiles i = true →
        (visRuns g (cs ++ [c])).revealed_tiles i = true) ∧
    (∀ (g : GridVis) (cs ds : List (Nat → Bool)) (i : Nat),
        (visRuns g cs).revealed_tiles i = true →
        (visRuns g (cs ++ ds)).revealed_tiles i = true) ∧
    (∀ (g : GridVis) (cs : List (Nat → Bool)) (c : Nat → Bool),
        (visRuns g (cs ++ [c])).visible_tiles = c) := by
  refine ⟨?_, ?_, ?_⟩
  · intro g cs c i hv
    rw [visRuns_append] at hv ⊢
    simp only [VisibilitySystem.playerUpdate] at hv ⊢
    rw [hv]
    simp
  · intro g cs ds i h
    have hsplit : visRuns g (cs ++ ds) = visRuns (visRuns g cs) ds := by
      simp [visRuns, List.foldl_append]
    rw [hsplit]
    exact visRuns_mono ds (visRuns g cs) i h
  · intro g cs c
    rw [visRuns_append]
    rfl

/-- Witness for C3 at a concrete grid state and pass sequence. -/
theorem claim_c3_revealed_invariant_witness :
    (visRuns ⟨fun i => decide (i = 5), fun _ => false⟩
        ([] ++ [fun _ => false])).revealed_tiles 5 = true :=
  claim_c3_revealed_invariant.2.1 ⟨fun i => decide (i = 5), fun _ => false⟩ []
    [fun _ => false] 5 rfl

/-- Claim C4: in the Monster Reaction pass, the monster at join position `k`
emits exactly one reaction event when its visible-tile set contains the
player's position and zero events otherwise; the pass reads only `ReadExpect`
and `ReadStorage` data, so it is a pure function of its inputs and mutates no
state. -/
theorem claim_c4_monster_events :
    ∀ (player_pos : Point) (ms : List Viewshed) (k : Nat) (h : k < ms.length),
      (MonsterAI.run player_pos ms).count k =
        if (ms.get ⟨k, h⟩).visible_tiles.contains player_pos = true then 1 else 0 := by
  intro p ms k h
  have hc := runFrom_count p ms 0 k h
  simpa using hc

/-- Witness for C4: two monsters, one seeing the player and one not. -/
theorem claim_c4_monster_events_witness :
    (MonsterAI.run ⟨1, 1⟩ [⟨[⟨1, 1⟩], 8, true⟩, ⟨[], 8, true⟩]).count 0 = 1 := by
  rw [claim_c4_monster_events ⟨1, 1⟩ [⟨[⟨1, 1⟩], 8, true⟩, ⟨[], 8, true⟩] 0 (by decide)]
  decide

set_option maxRecDepth 100000 in
/-- Claim C5, refuted: `Map::load` takes no `rng_seed` (indeed no parameter at
all) — it builds its `RandomNumberGenerator` internally with `new()`. With all
spec-listed generation parameters identical (they are compile-time constants),
two runs whose ambient generators draw different streams produce different
room lists. -/
theorem claim_c5_ambient_rng_counterexample :
    (Map.load (fun _ => 0)).rooms ≠ (Map.load (fun _ => 1)).rooms := by
  decide

/-- Claim C5, amended: generation is deterministic in the consumed random
draw stream — any two ambient streams that agree on the first 150 draws
(the loop runs 30 iterations and consumes at most 5 draws each) produce
identical maps: same tiles, rooms, and dimensions. -/
theorem claim_c5_draw_determinism :
    ∀ s t : Nat → Nat, (∀ k, k < 150 → s k = t k) → Map.load s = Map.load t := by
  intro s t h
  exact loadLoop_congr 30 initialMap 0 s t (fun k _ hk => h k (by omega))

/-- Witness for C5: two streams that differ only from draw 150 on generate
the same map. -/
theorem claim_c5_draw_determinism_witness :
    Map.load (fun _ => 0) = Map.load (fun k => if k < 150 then 0 else 7) :=
  claim_c5_draw_determinism (fun _ => 0) (fun k => if k < 150 then 0 else 7)
    (fun k hk => by simp [hk])

/-- Claim C6: after generation completes, every coordinate in the interior
(`x1+1..=x2, y1+1..=y2`) of every accepted room holds a Floor tile. -/
theorem claim_c6_room_interiors :
    ∀ (s : Nat → Nat), ∀ r ∈ (Map.load s).rooms, ∀ x y : Int,
      r.x1 + 1 ≤ x → x ≤ r.x2 → r.y1 + 1 ≤ y → y ≤ r.y2 →
      (Map.load s).tiles ((Map.load s).xy_idx x y) = TileType.Floor := by
  intro s r hr x y hx1 hx2 hy1 hy2
  have h0 : roomsFloored initialMap := by
    intro rm hrm x y _ _ _ _
    simp [initialMap] at hrm
  rw [Map.load_eq] at hr ⊢
  exact loadLoop_floored 30 (initialMap, ⟨s, 0⟩) h0 r hr x y hx1 hx2 hy1 hy2

set_option maxRecDepth 100000 in
/-- Witness for C6: the room accepted under the all-zero stream is
(0,0)-(6,6); its interior point (3,3) is Floor. -/
theorem claim_c6_room_interiors_witness :
    (Map.load (fun _ => 0)).tiles ((Map.load (fun _ => 0)).xy_idx 3 3) = TileType.Floor :=
  claim_c6_room_interiors (fun _ => 0) ⟨0, 0, 6, 6⟩ (by decide) 3 3 (by decide)
    (by decide) (by decide) (by decide)

/-- Claim C7: an iteration of the generation loop appends its candidate room
iff the candidate intersects no previously accepted room (and leaves the list
unchanged otherwise); pairwise non-intersection of the accepted list is
preserved by every iteration and holds for the final generated room list. -/
theorem claim_c7_acceptance_pairwise :
    (∀ (m : Map) (r : RNG),
        ((loadStep (m, r)).1.rooms = m.rooms ++ [(loadCand m r).1] ∧
          ∀ p ∈ m.rooms, (loadCand m r).1.intersect p = false) ∨
        ((loadStep (m, r)).1.rooms = m.rooms ∧
          ¬ ∀ p ∈ m.rooms, (loadCand m r).1.intersect p = false)) ∧
    (∀ (n : Nat) (mr : Map × RNG),
        mr.1.rooms.Pairwise (fun a b => a.intersect b = false) →
        (loadLoop n mr).1.rooms.Pairwise (fun a b => a.intersect b = false)) ∧
    (∀ s : Nat → Nat,
        (Map.load s).rooms.Pairwise (fun a b => a.intersect b = false)) := by
  refine ⟨?_, loadLoop_pairwise, ?_⟩
  · intro m r
    by_cases hok : roomOk m (loadCand m r).1
    · left
      refine ⟨?_, (roomOk_iff m _).mp hok⟩
      rw [loadStep_rooms]
      simp [hok]
    · right
      refine ⟨?_, fun hall => hok ((roomOk_iff m _).mpr hall)⟩
      rw [loadStep_rooms]
      simp [hok]
  · intro s
    rw [Map.load_eq]
    refine loadLoop_pairwise 30 (initialMap, ⟨s, 0⟩) ?_
    simp [initialMap]

/-- Witness for C7: two loop iterations from the fresh map keep the accepted
list pairwise non-intersecting. -/
theorem claim_c7_acceptance_pairwise_witness :
    (loadLoop 2 (initialMap, ⟨fun _ => 0, 0⟩)).1.rooms.Pairwise
      (fun a b => a.intersect b = false) :=
  claim_c7_acceptance_pairwise.2.1 2 (initialMap, ⟨fun _ => 0, 0⟩) (by simp [initialMap])

set_option maxRecDepth 100000 in
/-- Claim C8, refuted: carving a tunnel through an out-of-bounds coordinate
does not fail fast — both carvers return the map completely unchanged (here
row/column -1, whose wrapped indices fall outside the guard), with no error
of any kind. -/
theorem claim_c8_oob_returns_unchanged :
    initialMap.apply_horizontal_tunnel 0 0 (-1) = initialMap ∧
    initialMap.apply_vertical_tunnel 0 0 (-1) = initialMap := by
  constructor <;> rfl

/-- Claim C8, amended: when a computed corridor index is 0 or at least the
guard bound (`width as usize * height as usize` for the horizontal carver,
`MAPCOUNT` for the vertical one), the write is silently skipped — the tile at
that index is left unchanged and no OutOfBounds error is raised. -/
theorem claim_c8_silent_skip :
    (∀ (m : Map) (x1 x2 y : Int) (j : Nat),
        j = 0 ∨ usizeMul (i32ToUsize m.width) (i32ToUsize m.height) ≤ j →
        (m.apply_horizontal_tunnel x1 x2 y).tiles j = m.tiles j) ∧
    (∀ (m : Map) (y1 y2 x : Int) (j : Nat),
        j = 0 ∨ MAPCOUNT ≤ j →
        (m.apply_vertical_tunnel y1 y2 x).tiles j = m.tiles j) := by
  constructor
  · intro m x1 x2 y j h
    show ((intRange (min x1 x2) (max x1 x2)).foldl
        (fun t x =>
          carveGuarded (usizeMul (i32ToUsize m.width) (i32ToUsize m.height)) t
            (m.xy_idx x y)) m.tiles) j = m.tiles j
    exact foldl_carve_unchanged _ (fun x => m.xy_idx x y) _ m.tiles j h
  · intro m y1 y2 x j h
    show ((intRange (min y1 y2) (max y1 y2)).foldl
        (fun t y => carveGuarded MAPCOUNT t (m.xy_idx x y)) m.tiles) j = m.tiles j
    exact foldl_carve_unchanged _ (fun y => m.xy_idx x y) _ m.tiles j h

/-- Witness for C8 (amended) at index 0 of a concrete carve. -/
theorem claim_c8_silent_skip_witness :
    (initialMap.apply_horizontal_tunnel 1 2 1).tiles 0 = initialMap.tiles 0 :=
  claim_c8_silent_skip.1 initialMap 1 2 1 0 (Or.inl rfl)

/-- Claim C9: startup reads `rooms[0].center()` unconditionally, so the player
placement fails (panics, modelled as `none`) exactly when generation accepted
zero rooms, and succeeds with the first room's center otherwise. -/
theorem claim_c9_player_start :
    (∀ m : Map, m.rooms = [] → playerStart m = none) ∧
    (∀ (m : Map) (r : Rect) (rs : List Rect),
        m.rooms = r :: rs → playerStart m = some r.center) := by
  constructor
  · intro m h
    unfold playerStart
    rw [h]
  · intro m r rs h
    unfold playerStart
    rw [h]

/-- Witness for C9: the fresh map has no rooms, so player placement fails. -/
theorem claim_c9_player_start_witness : playerStart initialMap = none :=
  claim_c9_player_start.1 initialMap rfl

/-- Claim C10: under wrapping i32-to-usize arithmetic, the horizontal carver
writes only to indices strictly between 0 and `width as usize * height as
usize`, the vertical carver only strictly between 0 and `MAPCOUNT`; index 0 —
coordinate (0,0) — is never written by either; and on every generated map the
horizontal bound equals `MAPCOUNT`, i.e. width*height = 4000. -/
theorem claim_c10_guarded_writes :
    (∀ (m : Map) (x1 x2 y : Int) (j : Nat),
        (m.apply_horizontal_tunnel x1 x2 y).tiles j ≠ m.tiles j →
        0 < j ∧ j < usizeMul (i32ToUsize m.width) (i32ToUsize m.height)) ∧
    (∀ (m : Map) (y1 y2 x : Int) (j : Nat),
        (m.apply_vertical_tunnel y1 y2 x).tiles j ≠ m.tiles j →
        0 < j ∧ j < MAPCOUNT) ∧
    (∀ (m : Map) (a b c : Int),
        (m.apply_horizontal_tunnel a b c).tiles 0 = m.tiles 0 ∧
        (m.apply_vertical_tunnel a b c).tiles 0 = m.tiles 0) ∧
    (∀ s : Nat → Nat,
        usizeMul (i32ToUsize (Map.load s).width) (i32ToUsize (Map.load s).height) =
          MAPCOUNT) := by
  refine ⟨?_, ?_, ?_, ?_⟩
  · intro m x1 x2 y j hj
    have hj' : ((intRange (min x1 x2) (max x1 x2)).foldl
        (fun t x =>
          carveGuarded (usizeMul (i32ToUsize m.width) (i32ToUsize m.height)) t
            (m.xy_idx x y)) m.tiles) j ≠ m.tiles j := hj
    exact foldl_carve_changed _ (fun x => m.xy_idx x y) _ m.tiles j hj'
  · intro m y1 y2 x j hj
    have hj' : ((intRange (min y1 y2) (max y1 y2)).foldl
        (fun t y => carveGuarded MAPCOUNT t (m.xy_idx x y)) m.tiles) j ≠ m.tiles j := hj
    exact foldl_carve_changed _ (fun y => m.xy_idx x y) _ m.tiles j hj'
  · intro m a b c
    constructor
    · show ((intRange (min a b) (max a b)).foldl
          (fun t x =>
            carveGuarded (usizeMul (i32ToUsize m.width) (i32ToUsize m.height)) t
              (m.xy_idx x c)) m.tiles) 0 = m.tiles 0
      exact foldl_carve_unchanged _ (fun x => m.xy_idx x c) _ m.tiles 0 (Or.inl rfl)
    · show ((intRange (min a b) (max a b)).foldl
          (fun t y => carveGuarded MAPCOUNT t (m.xy_idx c y)) m.tiles) 0 = m.tiles 0
      exact foldl_carve_unchanged _ (fun y => m.xy_idx c y) _ m.tiles 0 (Or.inl rfl)
  · intro s
    rw [Map.load_eq, loadLoop_width 30 (initialMap, ⟨s, 0⟩),
      loadLoop_height 30 (initialMap, ⟨s, 0⟩)]
    show usizeMul (i32ToUsize initialMap.width) (i32ToUsize initialMap.height) = MAPCOUNT
    decide

set_option maxRecDepth 10000 in
/-- Witness for C10: a horizontal carve that changes index 81 certifies the
bounds at that index. -/
theorem claim_c10_guarded_writes_witness :
    0 < 81 ∧ 81 < usizeMul (i32ToUsize initialMap.width) (i32ToUsize initialMap.height) :=
  claim_c10_guarded_writes.1 initialMap 1 2 1 81 (by decide)

end Rustrg
